import Mathlib

/-!
Shallow embedding of the Spaceport-CRM sales-cadence logic.

Sources:
* `src/components/leads-table.tsx` — the `Lead` data model, `calculatePriority`
  (the cadence rule engine) and the `filteredAndSortedLeads` memo (dormant
  filter plus the "recent first" sort).
* `src/unnamed/part_009` (the `FollowUpPriority` component) — the
  `FollowUpItem` record and `calculateFollowUps`.

Timestamps are ISO-8601 strings in the source and are always consumed through
`new Date(s).getTime()`; we embed them directly as epoch milliseconds (`Int`).
JavaScript `Array.prototype.sort` is a stable in-place sort (ES2019), embedded
as `List.insertionSort`, which is stable; the in-place mutation it performs on
`lead.notes` is modelled explicitly by `calculatePriorityPost`.
`Math.floor` of an exact millisecond quotient is floor division `Int.fdiv`.
-/

/-- `Lead.status` enum from `leads-table.tsx`. -/
inductive Status where
  | cold
  | contacted
  | interested
  | closed
  | dormant
deriving DecidableEq

/-- `Note.type` enum (`"call" | "email" | "note"`). -/
inductive NoteType where
  | call
  | email
  | note
deriving DecidableEq

/-- One entry of `Lead.notes`; `timestamp` is the parsed epoch-millisecond value. -/
structure Note where
  id : String
  text : String
  timestamp : Int
  type : NoteType
deriving DecidableEq

/-- `Lead.priority` enum (`"high" | "medium" | "low" | "dormant"`). -/
inductive Priority where
  | high
  | medium
  | low
  | dormant
deriving DecidableEq

/-- The `Lead` interface of `leads-table.tsx`.  `nextActionDate` is stored as an
ISO string in the source and only ever produced from a date; we keep it as
epoch milliseconds. -/
structure Lead where
  id : String
  name : String
  phone : String
  email : String
  address : String
  company : Option String
  status : Status
  lastInteraction : String
  ownerId : Option String
  ownerName : Option String
  priority : Priority
  nextActionDate : Int
  notes : List Note
deriving DecidableEq

/-- `1000 * 60 * 60 * 24` — milliseconds per day, as in both source files. -/
def msPerDay : Int := 1000 * 60 * 60 * 24

/-- The ordering used by `lead.notes.sort((a, b) => new Date(b.timestamp).getTime()
- new Date(a.timestamp).getTime())`: `a` may stay before `b` iff the comparator
value `b.timestamp - a.timestamp` is `≤ 0`. -/
def noteAfter (a b : Note) : Prop := b.timestamp - a.timestamp ≤ 0

instance : DecidableRel noteAfter := fun a b =>
  inferInstanceAs (Decidable (b.timestamp - a.timestamp ≤ 0))

instance : IsTotal Note noteAfter :=
  ⟨fun a b => by unfold noteAfter; omega⟩

instance : IsTrans Note noteAfter :=
  ⟨fun a b c hab hbc => by unfold noteAfter at *; omega⟩

/-- `notes.sort((a, b) => tb - ta)`: stable sort of the notes by descending
timestamp (JavaScript sort is stable; `insertionSort` is stable). -/
def sortNotesDesc (notes : List Note) : List Note :=
  notes.insertionSort noteAfter

/-- `lead.notes.sort(...)[0]` — the most recent note, `none` when there are no
notes (`undefined` in the source). -/
def lastNote? (lead : Lead) : Option Note :=
  (sortNotesDesc lead.notes).head?

/-- `Math.floor((now.getTime() - new Date(ts).getTime()) / (1000*60*60*24))`. -/
def daysSince (now ts : Int) : Int :=
  Int.fdiv (now - ts) msPerDay

/-- Return type of `calculatePriority`. -/
structure PriorityResult where
  priority : Priority
  nextActionDate : Int
  reason : String
deriving DecidableEq

/-- `calculatePriority` from `leads-table.tsx` (lines 54–119).  `now` is the
single current time: the source calls `new Date()` / `Date.now()` several
times within one synchronous run, all denoting the current time.  The local
constant `daysSinceLastContact` is inlined as `daysSince now lastNote.timestamp`. -/
def calculatePriority (now : Int) (lead : Lead) : PriorityResult :=
  match lastNote? lead with
  | Option.none =>
      ⟨Priority.high, now, "No initial contact made"⟩
  | Option.some lastNote =>
      if 30 < daysSince now lastNote.timestamp then
        ⟨Priority.dormant, now + 7 * msPerDay, "Dormant - follow up when convenient"⟩
      else if lead.status = Status.interested ∧ 2 ≤ daysSince now lastNote.timestamp then
        ⟨Priority.high, now, "Interested lead needs immediate follow-up"⟩
      else if lastNote.type = NoteType.call ∧ 3 ≤ daysSince now lastNote.timestamp then
        ⟨Priority.medium, now, "Email follow-up after call"⟩
      else if lastNote.type = NoteType.email ∧ 5 ≤ daysSince now lastNote.timestamp then
        ⟨Priority.medium, now, "Call follow-up after email"⟩
      else if 7 ≤ daysSince now lastNote.timestamp then
        ⟨Priority.low, now, "Weekly check-in"⟩
      else
        ⟨Priority.low, now + (7 - daysSince now lastNote.timestamp) * msPerDay, "On schedule"⟩

/-- The state of the lead after a call to `calculatePriority`:
`lead.notes.sort(...)` is JavaScript's in-place `Array.prototype.sort`, so the
call reorders the lead's notes array into descending-timestamp order; every
other field is untouched. -/
def calculatePriorityPost (lead : Lead) : Lead :=
  { lead with notes := sortNotesDesc lead.notes }

/-- `const priorityOrder = { high: 4, medium: 3, low: 2, dormant: 1 }`. -/
def priorityOrder : Priority → Int
  | Priority.high => 4
  | Priority.medium => 3
  | Priority.low => 2
  | Priority.dormant => 1

/-- `aLastNote ? new Date(aLastNote.timestamp).getTime() : 0` — the most recent
note's timestamp, `0` for a lead with no notes. -/
def lastNoteTime (lead : Lead) : Int :=
  match (sortNotesDesc lead.notes).head? with
  | Option.some n => n.timestamp
  | Option.none => 0

/-- The comparator of the "recent first" sort in `filteredAndSortedLeads`:
priority rank descending first, then most-recent-note timestamp descending. -/
def compareLeads (a b : Lead) : Int :=
  if priorityOrder b.priority - priorityOrder a.priority ≠ 0 then
    priorityOrder b.priority - priorityOrder a.priority
  else lastNoteTime b - lastNoteTime a

/-- `a` may stay before `b` under the comparator (comparator value `≤ 0`). -/
def leadBefore (a b : Lead) : Prop := compareLeads a b ≤ 0

instance : DecidableRel leadBefore := fun a b =>
  inferInstanceAs (Decidable (compareLeads a b ≤ 0))

/-- `leadsWithPriority`: each lead with `priority` and `nextActionDate`
recomputed by `calculatePriority` (the spread `{...lead, ...}` keeps the
very notes array that `calculatePriority` just sorted in place, hence the
`sortNotesDesc`). The extra display-only `priorityReason` field is not kept. -/
def leadsWithPriority (now : Int) (leads : List Lead) : List Lead :=
  leads.map fun lead =>
    let r := calculatePriority now lead
    { lead with
        notes := sortNotesDesc lead.notes
        priority := r.priority
        nextActionDate := r.nextActionDate }

/-- The `filtered` intermediate of the `filteredAndSortedLeads` memo: drop
dormant leads unless `showDormant`. -/
def filteredLeads (now : Int) (leads : List Lead) (showDormant : Bool) : List Lead :=
  if showDormant then leadsWithPriority now leads
  else (leadsWithPriority now leads).filter fun lead => lead.priority ≠ Priority.dormant

/-- `filteredAndSortedLeads`: recompute priorities, drop dormant leads unless
`showDormant`, and when `sortByRecent` sort with the `compareLeads` comparator. -/
def filteredAndSortedLeads (now : Int) (leads : List Lead)
    (sortByRecent showDormant : Bool) : List Lead :=
  if sortByRecent then (filteredLeads now leads showDormant).insertionSort leadBefore
  else filteredLeads now leads showDormant

/-- `FollowUpItem.urgency` (`"high" | "medium" | "low"`) in `FollowUpPriority`. -/
inductive Urgency where
  | high
  | medium
  | low
deriving DecidableEq

/-- `FollowUpItem.nextAction` (`"call" | "email"`). -/
inductive NextAction where
  | call
  | email
deriving DecidableEq

/-- The `FollowUpItem` record of `FollowUpPriority`. -/
structure FollowUpItem where
  lead : Lead
  urgency : Urgency
  nextAction : NextAction
  daysOverdue : Int
  reason : String
deriving DecidableEq

/-- The per-lead body of the `leads.forEach` loop in `calculateFollowUps`:
`none` when the loop pushes nothing for this lead.  `lastNote? lead` is the
source's `lead.notes.sort(...)[0]` (`lastInteraction`); the local constant
`daysSinceLastContact` is inlined. -/
def followUpFor (now : Int) (lead : Lead) : Option FollowUpItem :=
  if lead.status = Status.closed then Option.none
  else
    match lastNote? lead with
    | Option.none =>
        Option.some ⟨lead, Urgency.high, NextAction.call, 0, "No initial contact made"⟩
    | Option.some lastInteraction =>
        if lastInteraction.type = NoteType.call ∧ 2 ≤ daysSince now lastInteraction.timestamp then
          Option.some ⟨lead,
            if 4 < daysSince now lastInteraction.timestamp then Urgency.high else Urgency.medium,
            NextAction.email, daysSince now lastInteraction.timestamp - 2,
            "Email follow-up after call"⟩
        else if lastInteraction.type = NoteType.email ∧
            4 ≤ daysSince now lastInteraction.timestamp then
          Option.some ⟨lead,
            if 7 < daysSince now lastInteraction.timestamp then Urgency.high else Urgency.medium,
            NextAction.call, daysSince now lastInteraction.timestamp - 4,
            "Call follow-up after email"⟩
        else if 7 ≤ daysSince now lastInteraction.timestamp then
          Option.some ⟨lead, Urgency.low, NextAction.call,
            daysSince now lastInteraction.timestamp - 7, "Weekly check-in"⟩
        else Option.none

/-- `const urgencyOrder = { high: 3, medium: 2, low: 1 }`. -/
def urgencyOrder : Urgency → Int
  | Urgency.high => 3
  | Urgency.medium => 2
  | Urgency.low => 1

/-- The final-sort comparator of `calculateFollowUps`:
`urgencyOrder[b] - urgencyOrder[a] || b.daysOverdue - a.daysOverdue`. -/
def compareFollowUps (a b : FollowUpItem) : Int :=
  if urgencyOrder b.urgency - urgencyOrder a.urgency ≠ 0 then
    urgencyOrder b.urgency - urgencyOrder a.urgency
  else b.daysOverdue - a.daysOverdue

/-- `a` may stay before `b` under `compareFollowUps`. -/
def followUpBefore (a b : FollowUpItem) : Prop := compareFollowUps a b ≤ 0

instance : DecidableRel followUpBefore := fun a b =>
  inferInstanceAs (Decidable (compareFollowUps a b ≤ 0))

/-- `calculateFollowUps` from `FollowUpPriority`: one optional item per lead,
then sorted by urgency (then overdue days) descending. -/
def calculateFollowUps (now : Int) (leads : List Lead) : List FollowUpItem :=
  (leads.filterMap (followUpFor now)).insertionSort followUpBefore

/-! ### Helper lemmas and concrete witness data -/

lemma lastNote?_nil (lead : Lead) (h : lead.notes = []) : lastNote? lead = Option.none := by
  simp [lastNote?, sortNotesDesc, h]

lemma lastNote?_singleton (lead : Lead) (n : Note) (h : lead.notes = [n]) :
    lastNote? lead = Option.some n := by
  simp [lastNote?, sortNotesDesc, h]

/-- A concrete lead with no notes. -/
def leadNoNotes : Lead :=
  ⟨"w0", "Ada", "555", "a@x", "1 Main St", Option.none, Status.cold, "never",
    Option.none, Option.none, Priority.low, 0, []⟩

/-- An old email note at epoch 0. -/
def oldEmailNote : Note := ⟨"w2n", "old email", 0, NoteType.email⟩

/-- A plain note (type `note`) at epoch 0. -/
def plainNote : Note := ⟨"w3n", "left a note", 0, NoteType.note⟩

/-- A call note at epoch 0. -/
def callNote : Note := ⟨"w4n", "called", 0, NoteType.call⟩

/-- A closed lead whose only note is old. -/
def closedOldLead : Lead :=
  { leadNoNotes with id := "w2", status := Status.closed, notes := [oldEmailNote] }

/-- An interested lead with one plain note. -/
def interestedLead : Lead :=
  { leadNoNotes with id := "w3", status := Status.interested, notes := [plainNote] }

/-- A contacted lead with one call note. -/
def contactedCallLead : Lead :=
  { leadNoNotes with id := "w4", status := Status.contacted, notes := [callNote] }

/-- A contacted lead with one plain note. -/
def onScheduleLead : Lead :=
  { leadNoNotes with id := "w5", status := Status.contacted, notes := [plainNote] }

/-! ### Claims about `calculatePriority` -/

/-- C1: a lead with no notes gets priority `high`, reason "No initial contact
made", and next action now, whatever its status. -/
theorem priority_no_notes_high (now : Int) (lead : Lead) (h : lead.notes = []) :
    calculatePriority now lead = ⟨Priority.high, now, "No initial contact made"⟩ := by
  unfold calculatePriority
  rw [lastNote?_nil lead h]

theorem priority_no_notes_high_witness :
    calculatePriority 12345 leadNoNotes = ⟨Priority.high, 12345, "No initial contact made"⟩ :=
  priority_no_notes_high 12345 leadNoNotes rfl

/-- C2: when the most recent note is more than 30 (floored) days old the lead is
`dormant` with next action now + 7 days, whatever its status and whatever the
note's type. -/
theorem priority_dormant_over_30 (now : Int) (lead : Lead) (n : Note)
    (hn : lastNote? lead = Option.some n) (hd : 30 < daysSince now n.timestamp) :
    calculatePriority now lead
      = ⟨Priority.dormant, now + 7 * msPerDay, "Dormant - follow up when convenient"⟩ := by
  simp [calculatePriority, hn, hd]

theorem priority_dormant_over_30_witness :
    calculatePriority (31 * msPerDay) closedOldLead
      = ⟨Priority.dormant, 31 * msPerDay + 7 * msPerDay,
          "Dormant - follow up when convenient"⟩ :=
  priority_dormant_over_30 (31 * msPerDay) closedOldLead oldEmailNote (by decide) (by decide)

/-- C3: an interested lead whose most recent note is between 2 and 30 (floored)
days old gets priority `high` with next action now. -/
theorem priority_interested_high (now : Int) (lead : Lead) (n : Note)
    (hn : lastNote? lead = Option.some n) (hs : lead.status = Status.interested)
    (h2 : 2 ≤ daysSince now n.timestamp) (h30 : daysSince now n.timestamp ≤ 30) :
    calculatePriority now lead
      = ⟨Priority.high, now, "Interested lead needs immediate follow-up"⟩ := by
  have h30' : ¬ 30 < daysSince now n.timestamp := not_lt.mpr h30
  simp [calculatePriority, hn, hs, h2, h30']

theorem priority_interested_high_witness :
    calculatePriority (2 * msPerDay) interestedLead
      = ⟨Priority.high, 2 * msPerDay, "Interested lead needs immediate follow-up"⟩ :=
  priority_interested_high (2 * msPerDay) interestedLead plainNote
    (by decide) rfl (by decide) (by decide)

/-- C4: a contacted lead whose only note is a call exactly 3 days old gets
priority `medium`, reason "Email follow-up after call". -/
theorem priority_call_three_days_medium (now : Int) (lead : Lead) (n : Note)
    (hnotes : lead.notes = [n]) (hs : lead.status = Status.contacted)
    (ht : n.type = NoteType.call) (hts : n.timestamp = now - 3 * msPerDay) :
    calculatePriority now lead = ⟨Priority.medium, now, "Email follow-up after call"⟩ := by
  have hn := lastNote?_singleton lead n hnotes
  have hd : daysSince now n.timestamp = 3 := by
    rw [hts]
    show Int.fdiv (now - (now - 3 * msPerDay)) msPerDay = 3
    have h3 : now - (now - 3 * msPerDay) = 3 * msPerDay := by ring
    rw [h3]
    decide
  simp [calculatePriority, hn, hd, hs, ht]

theorem priority_call_three_days_medium_witness :
    calculatePriority (3 * msPerDay) contactedCallLead
      = ⟨Priority.medium, 3 * msPerDay, "Email follow-up after call"⟩ :=
  priority_call_three_days_medium (3 * msPerDay) contactedCallLead callNote
    rfl rfl rfl (by decide)

/-- C5: when no earlier rule fires (some note, ≤ 30 floored days old, neither
the interested nor the call/email rules apply, and fewer than 7 days have
passed), the lead is `low` / "On schedule" with next action
now + (7 − days-since) days, days-since being the floored day difference. -/
theorem priority_on_schedule_low (now : Int) (lead : Lead) (n : Note)
    (hn : lastNote? lead = Option.some n)
    (h30 : daysSince now n.timestamp ≤ 30)
    (hni : ¬ (lead.status = Status.interested ∧ 2 ≤ daysSince now n.timestamp))
    (hnc : ¬ (n.type = NoteType.call ∧ 3 ≤ daysSince now n.timestamp))
    (hne : ¬ (n.type = NoteType.email ∧ 5 ≤ daysSince now n.timestamp))
    (h7 : daysSince now n.timestamp < 7) :
    calculatePriority now lead
      = ⟨Priority.low, now + (7 - daysSince now n.timestamp) * msPerDay, "On schedule"⟩ := by
  have h30' : ¬ 30 < daysSince now n.timestamp := not_lt.mpr h30
  have h7' : ¬ 7 ≤ daysSince now n.timestamp := not_le.mpr h7
  simp [calculatePriority, hn, h30', hni, hnc, hne, h7']

theorem priority_on_schedule_low_witness :
    calculatePriority msPerDay onScheduleLead
      = ⟨Priority.low, msPerDay + (7 - daysSince msPerDay plainNote.timestamp) * msPerDay,
          "On schedule"⟩ :=
  priority_on_schedule_low msPerDay onScheduleLead plainNote
    (by decide) (by decide) (by decide) (by decide) (by decide) (by decide)

/-- C9: `calculatePriority` is a total function — every lead yields exactly one
result whose priority is one of the four tiers, and evaluating it twice on the
same lead at the same time gives the same result. -/
theorem calculatePriority_total (now : Int) (lead : Lead) :
    ((calculatePriority now lead).priority = Priority.high ∨
      (calculatePriority now lead).priority = Priority.medium ∨
      (calculatePriority now lead).priority = Priority.low ∨
      (calculatePriority now lead).priority = Priority.dormant) ∧
    calculatePriority now lead = calculatePriority now lead := by
  refine ⟨?_, rfl⟩
  cases h : (calculatePriority now lead).priority <;> simp


/-! ### Claims about `calculateFollowUps` -/

/-- Every item `followUpFor` produces carries the very lead it came from, comes
from a non-closed lead, and is not negatively overdue: the no-notes branch sets
`daysOverdue` to 0 and each cadence branch subtracts exactly the threshold its
guard already requires. -/
lemma followUpFor_shape (now : Int) (lead : Lead) (it : FollowUpItem)
    (h : followUpFor now lead = Option.some it) :
    it.lead = lead ∧ lead.status ≠ Status.closed ∧ 0 ≤ it.daysOverdue := by
  unfold followUpFor at h
  by_cases hc : lead.status = Status.closed
  · rw [if_pos hc] at h
    exact Option.noConfusion h
  · rw [if_neg hc] at h
    split at h
    next heq =>
      injection h with h
      subst h
      exact ⟨rfl, hc, le_refl 0⟩
    next m heq =>
      split at h
      next hcall =>
        injection h with h
        subst h
        obtain ⟨-, h2⟩ := hcall
        refine ⟨rfl, hc, ?_⟩
        show (0 : Int) ≤ daysSince now m.timestamp - 2
        omega
      next =>
        split at h
        next hemail =>
          injection h with h
          subst h
          obtain ⟨-, h4⟩ := hemail
          refine ⟨rfl, hc, ?_⟩
          show (0 : Int) ≤ daysSince now m.timestamp - 4
          omega
        next =>
          split at h
          next hweek =>
            injection h with h
            subst h
            refine ⟨rfl, hc, ?_⟩
            show (0 : Int) ≤ daysSince now m.timestamp - 7
            omega
          next =>
            exact Option.noConfusion h

/-- The call branch of `followUpFor`: email follow-up, `daysOverdue` =
days-since − 2, urgency escalated on `daysSinceLastContact > 4`. -/
lemma followUpFor_call (now : Int) (lead : Lead) (n : Note)
    (hc : lead.status ≠ Status.closed)
    (hl : lastNote? lead = Option.some n) (ht : n.type = NoteType.call)
    (h2 : 2 ≤ daysSince now n.timestamp) :
    followUpFor now lead = Option.some
      ⟨lead, if 4 < daysSince now n.timestamp then Urgency.high else Urgency.medium,
        NextAction.email, daysSince now n.timestamp - 2, "Email follow-up after call"⟩ := by
  simp [followUpFor, hc, hl, ht, h2]

/-- Membership in `calculateFollowUps` is exactly membership in the per-lead
results. -/
lemma mem_calculateFollowUps (now : Int) (leads : List Lead) (it : FollowUpItem) :
    it ∈ calculateFollowUps now leads ↔
      ∃ lead, lead ∈ leads ∧ followUpFor now lead = Option.some it := by
  unfold calculateFollowUps
  rw [List.mem_insertionSort]
  exact List.mem_filterMap

/-- C10: every follow-up item has `daysOverdue ≥ 0`. -/
theorem followUps_daysOverdue_nonneg (now : Int) (leads : List Lead)
    (it : FollowUpItem) (hmem : it ∈ calculateFollowUps now leads) :
    0 ≤ it.daysOverdue := by
  obtain ⟨lead, -, hf⟩ := (mem_calculateFollowUps now leads it).mp hmem
  exact (followUpFor_shape now lead it hf).2.2

theorem followUps_daysOverdue_nonneg_witness :
    (0 : Int) ≤ (⟨contactedCallLead, Urgency.high, NextAction.email, 3,
      "Email follow-up after call"⟩ : FollowUpItem).daysOverdue :=
  followUps_daysOverdue_nonneg (5 * msPerDay) [contactedCallLead]
    ⟨contactedCallLead, Urgency.high, NextAction.email, 3, "Email follow-up after call"⟩
    (by decide)

/-- C6 as written is false at a call note 5 floored days old: the produced item
is only 3 days overdue — not more than 4 — yet its urgency is `high`, because
the source escalates on `daysSinceLastContact > 4`, not on `daysOverdue > 4`. -/
theorem followUps_call_escalation_cex :
    calculateFollowUps (5 * msPerDay) [contactedCallLead]
        = [⟨contactedCallLead, Urgency.high, NextAction.email, 3,
            "Email follow-up after call"⟩]
      ∧ ¬ ((4 : Int) < 3) := by
  exact ⟨by decide, by decide⟩

/-- C6 (amended): closed leads yield no follow-up item; a non-closed lead whose
most recent note is a call at least 2 floored days old yields next action
`email` with `daysOverdue` = days-since − 2 and urgency `medium`, escalated to
`high` exactly when days-since-last-contact exceeds 4 (that is, when the item
is more than 2 days overdue). -/
theorem followUps_call_cadence (now : Int) (leads : List Lead) :
    (∀ it ∈ calculateFollowUps now leads, it.lead.status ≠ Status.closed) ∧
    (∀ lead : Lead, lead.status = Status.closed → followUpFor now lead = Option.none) ∧
    (∀ lead : Lead, ∀ n : Note, lead.status ≠ Status.closed →
      lastNote? lead = Option.some n → n.type = NoteType.call →
      2 ≤ daysSince now n.timestamp →
      followUpFor now lead = Option.some
        ⟨lead, if 4 < daysSince now n.timestamp then Urgency.high else Urgency.medium,
          NextAction.email, daysSince now n.timestamp - 2, "Email follow-up after call"⟩ ∧
      (lead ∈ leads →
        (⟨lead, if 4 < daysSince now n.timestamp then Urgency.high else Urgency.medium,
          NextAction.email, daysSince now n.timestamp - 2,
          "Email follow-up after call"⟩ : FollowUpItem) ∈ calculateFollowUps now leads)) := by
  refine ⟨?_, ?_, ?_⟩
  · intro it hmem
    obtain ⟨lead, -, hf⟩ := (mem_calculateFollowUps now leads it).mp hmem
    obtain ⟨hlead, hnc, -⟩ := followUpFor_shape now lead it hf
    rw [hlead]
    exact hnc
  · intro lead hc
    unfold followUpFor
    rw [if_pos hc]
  · intro lead n hc hl ht h2
    have hf := followUpFor_call now lead n hc hl ht h2
    refine ⟨hf, fun hmem => ?_⟩
    exact (mem_calculateFollowUps now leads _).mpr ⟨lead, hmem, hf⟩

theorem followUps_call_cadence_witness :
    followUpFor (5 * msPerDay) contactedCallLead = Option.some
      ⟨contactedCallLead,
        if 4 < daysSince (5 * msPerDay) callNote.timestamp then Urgency.high
        else Urgency.medium,
        NextAction.email, daysSince (5 * msPerDay) callNote.timestamp - 2,
        "Email follow-up after call"⟩ :=
  ((followUps_call_cadence (5 * msPerDay) [contactedCallLead]).2.2 contactedCallLead callNote
    (by decide) (by decide) rfl (by decide)).1

/-! ### The "recent first" sort and the purity of `calculatePriority` -/

/-- `compareLeads a b ≤ 0` means: `a`'s priority ranks strictly higher, or the
priorities tie and `a`'s most recent note is at least as recent. -/
lemma leadBefore_iff (a b : Lead) : leadBefore a b ↔
    (priorityOrder b.priority < priorityOrder a.priority ∨
      (priorityOrder a.priority = priorityOrder b.priority ∧
        lastNoteTime b ≤ lastNoteTime a)) := by
  unfold leadBefore compareLeads
  split
  next h => omega
  next h => omega

instance : IsTotal Lead leadBefore :=
  ⟨fun a b => by rw [leadBefore_iff, leadBefore_iff]; omega⟩

instance : IsTrans Lead leadBefore :=
  ⟨fun a b c hab hbc => by
    rw [leadBefore_iff] at hab hbc ⊢
    omega⟩

/-- C7: with "recent first" enabled the table is ordered by priority rank
descending (high=4, medium=3, low=2, dormant=1) and, within equal ranks, by
most-recent-note timestamp descending; it is a permutation of the filtered
leads, and a lead with no notes sorts as timestamp 0. -/
theorem recentFirst_sort_order (now : Int) (leads : List Lead) (showDormant : Bool) :
    ((filteredAndSortedLeads now leads true showDormant).Pairwise fun a b =>
        priorityOrder b.priority < priorityOrder a.priority ∨
        (priorityOrder a.priority = priorityOrder b.priority ∧
          lastNoteTime b ≤ lastNoteTime a)) ∧
    (filteredAndSortedLeads now leads true showDormant).Perm
      (filteredLeads now leads showDormant) ∧
    (priorityOrder Priority.high = 4 ∧ priorityOrder Priority.medium = 3 ∧
      priorityOrder Priority.low = 2 ∧ priorityOrder Priority.dormant = 1) ∧
    (∀ lead : Lead, lead.notes = [] → lastNoteTime lead = 0) := by
  refine ⟨?_, ?_, ⟨rfl, rfl, rfl, rfl⟩, ?_⟩
  · exact (List.sorted_insertionSort leadBefore (filteredLeads now leads showDormant)).imp
      fun hab => (leadBefore_iff _ _).mp hab
  · exact List.perm_insertionSort leadBefore (filteredLeads now leads showDormant)
  · intro lead h
    simp [lastNoteTime, sortNotesDesc, h]

theorem recentFirst_sort_order_witness : lastNoteTime leadNoNotes = 0 :=
  (recentFirst_sort_order 0 [] false).2.2.2 leadNoNotes rfl

/-- Two notes in ascending-timestamp order, to exhibit the in-place reorder. -/
def noteEarly : Note := ⟨"c8a", "first", 0, NoteType.note⟩

/-- The later of the two notes. -/
def noteLate : Note := ⟨"c8b", "second", msPerDay, NoteType.note⟩

/-- A lead whose notes array is in ascending-timestamp order. -/
def twoNoteLead : Lead :=
  { leadNoNotes with id := "w8", status := Status.contacted, notes := [noteEarly, noteLate] }

/-- The same lead with its notes array in the opposite order. -/
def twoNoteLeadSwapped : Lead :=
  { twoNoteLead with notes := [noteLate, noteEarly] }

/-- C8 as written is false: `lead.notes.sort(...)` inside `calculatePriority`
is JavaScript's in-place sort, so on a lead whose notes are stored
oldest-first the call changes the element order of the notes collection. -/
theorem calculatePriority_mutates_notes :
    (calculatePriorityPost twoNoteLead).notes ≠ twoNoteLead.notes := by decide

/-- C8 (amended): `calculatePriority`'s result depends only on the lead's
status, its most recent note, and the current time, and the call leaves every
field of the lead unchanged except `notes`, which it reorders in place into
descending-timestamp order — the same multiset of notes. -/
theorem calculatePriority_frame (now : Int) (lead : Lead) :
    (calculatePriorityPost lead).notes.Perm lead.notes ∧
    calculatePriorityPost lead = { lead with notes := sortNotesDesc lead.notes } ∧
    (∀ l : Lead, l.status = lead.status → lastNote? l = lastNote? lead →
      calculatePriority now l = calculatePriority now lead) := by
  refine ⟨List.perm_insertionSort noteAfter lead.notes, rfl, ?_⟩
  intro l hs hn
  unfold calculatePriority
  rw [hn, hs]

theorem calculatePriority_frame_witness :
    calculatePriority 0 twoNoteLeadSwapped = calculatePriority 0 twoNoteLead :=
  (calculatePriority_frame 0 twoNoteLead).2.2 twoNoteLeadSwapped rfl (by decide)
